import Mathlib

/-
Verification of the yellowstone-grpc example client
(src/yellowstone-grpc/examples/rust/src/bin/client.rs).

The development shallowly embeds the parts of the program the properties
talk about:

* the string parsing the builder performs ("offset,base58" memcmp strings,
  "offset,length" data-slice strings), modelling Rust's `str::split_once`
  and `u64::from_str`;
* the wire data model (`SubscribeRequest` and its filter groups, modelled
  with association lists in place of `HashMap`, since the code only ever
  inserts the single key "client" into a fresh map);
* `Action::get_subscribe_request`, the pure filter-spec builder (the one
  file read for `accounts_account_path` is passed in as a collaborator
  function);
* the update decoder (`AccountPretty`, `TransactionPretty`,
  `TransactionStatusPretty` conversions, whose `expect` calls are modelled
  as `Except.error`, standing for a Rust panic);
* the `geyser_subscribe` receive loop, modelled as a recursive function
  over the list of inbound stream items that produces the trace of
  read/send events, the final value of the local `counter`, and the
  session outcome;
* the supervisor decision of `main` (backoff `retry` loop): connect
  failures are transient and retried, a session that returns `Ok` ends the
  retry loop successfully, and a panic aborts the process.

Machine integers: the Rust code parses into `u64` fields; parsing is
modelled on `Nat` with an explicit `< 2 ^ 64` bound (Rust's parse fails on
overflow rather than wrapping).  The loop counter (`usize`) is modelled as
`Nat`.
-/

namespace GClient

/-! ## String parsing primitives -/

/-- Value of an ASCII digit character, `none` for any other character. -/
def charToDigit (c : Char) : Option Nat :=
  if '0' ≤ c ∧ c ≤ '9' then some (c.toNat - '0'.toNat) else none

/-- Accumulating decimal parse over a list of characters; fails on the
first non-digit character.  Mirrors the digit loop of Rust's
`u64::from_str`. -/
def digitsToNatAux : Nat → List Char → Option Nat
  | acc, [] => some acc
  | acc, c :: cs =>
    match charToDigit c with
    | some d => digitsToNatAux (acc * 10 + d) cs
    | none => none

/-- Decimal parse of a nonempty all-digit character list. -/
def digitsToNat (cs : List Char) : Option Nat :=
  if cs.isEmpty then none else digitsToNatAux 0 cs

/-- Model of Rust `u64::from_str`: an optional single leading '+', then a
nonempty run of ASCII digits, failing on overflow past `2 ^ 64 - 1`. -/
def parseU64 (s : String) : Option Nat :=
  let cs := s.data
  let cs' := if cs.head? = some '+' then cs.tail else cs
  match digitsToNat cs' with
  | some n => if n < 2 ^ 64 then some n else none
  | none => none

/-- Split a character list at the first occurrence of `sep`, removing the
separator; `none` when `sep` does not occur. -/
def splitOnceAux : List Char → Char → Option (List Char × List Char)
  | [], _ => none
  | c :: cs, sep =>
    if c = sep then some ([], cs)
    else
      match splitOnceAux cs sep with
      | some (l, r) => some (c :: l, r)
      | none => none

/-- Model of Rust `str::split_once`. -/
def splitOnce (s : String) (sep : Char) : Option (String × String) :=
  match splitOnceAux s.data sep with
  | some (l, r) => some (⟨l⟩, ⟨r⟩)
  | none => none

/-- Model of Rust `str::trim`: strip whitespace from both ends.  (Rust
trims the Unicode White_Space set; ASCII whitespace, which
`Char.isWhitespace` covers, suffices for the option strings modelled
here.) -/
def strTrim (s : String) : String :=
  ⟨(((s.data.dropWhile Char.isWhitespace).reverse.dropWhile Char.isWhitespace).reverse)⟩

/-- The character of a decimal digit (defined for `d < 10`). -/
def digitChar (d : Nat) : Char :=
  match d with
  | 0 => '0' | 1 => '1' | 2 => '2' | 3 => '3' | 4 => '4'
  | 5 => '5' | 6 => '6' | 7 => '7' | 8 => '8' | 9 => '9'
  | _ => '0'

/-- Big-endian decimal digit characters of `n`, prepended to `acc`. -/
def natDigitsAux (n : Nat) (acc : List Char) : List Char :=
  if h : n < 10 then digitChar n :: acc
  else natDigitsAux (n / 10) (digitChar (n % 10) :: acc)
termination_by n
decreasing_by exact Nat.div_lt_self (by omega) (by omega)

/-- Canonical decimal numeral of `n` (no sign, no leading zeros). -/
def natRepr (n : Nat) : String := ⟨natDigitsAux n []⟩

/-! ## Wire data model (`yellowstone_grpc_proto::prelude`)

`HashMap<String, _>` filter-group maps are modelled as association lists
`List (String × _)`: the code only ever builds the empty map or a fresh
map holding the single key "client". -/

/-- Memcmp payload oneof; the client only constructs the `base58` arm. -/
inductive AccountsFilterMemcmpOneof
  | bytes (bs : List Nat)
  | base58 (s : String)
  | base64 (s : String)
deriving DecidableEq, Repr

structure SubscribeRequestFilterAccountsFilterMemcmp where
  offset : Nat
  data : Option AccountsFilterMemcmpOneof
deriving DecidableEq, Repr

inductive AccountsFilterDataOneof
  | memcmp (m : SubscribeRequestFilterAccountsFilterMemcmp)
  | datasize (n : Nat)
  | tokenAccountState (b : Bool)
deriving DecidableEq, Repr

structure SubscribeRequestFilterAccountsFilter where
  filter : Option AccountsFilterDataOneof
deriving DecidableEq, Repr

structure SubscribeRequestFilterAccounts where
  account : List String
  owner : List String
  filters : List SubscribeRequestFilterAccountsFilter
deriving DecidableEq, Repr

structure SubscribeRequestFilterSlots where
  filter_by_commitment : Option Bool
deriving DecidableEq, Repr

structure SubscribeRequestFilterTransactions where
  vote : Option Bool
  failed : Option Bool
  signature : Option String
  account_include : List String
  account_exclude : List String
  account_required : List String
deriving DecidableEq, Repr

structure SubscribeRequestFilterEntry where
deriving DecidableEq, Repr

structure SubscribeRequestFilterBlocks where
  account_include : List String
  include_transactions : Option Bool
  include_accounts : Option Bool
  include_entries : Option Bool
deriving DecidableEq, Repr

structure SubscribeRequestFilterBlocksMeta where
deriving DecidableEq, Repr

structure SubscribeRequestAccountsDataSlice where
  offset : Nat
  length : Nat
deriving DecidableEq, Repr

structure SubscribeRequestPing where
  id : Int
deriving DecidableEq, Repr

structure SubscribeRequest where
  slots : List (String × SubscribeRequestFilterSlots)
  accounts : List (String × SubscribeRequestFilterAccounts)
  transactions : List (String × SubscribeRequestFilterTransactions)
  transactions_status : List (String × SubscribeRequestFilterTransactions)
  entry : List (String × SubscribeRequestFilterEntry)
  blocks : List (String × SubscribeRequestFilterBlocks)
  blocks_meta : List (String × SubscribeRequestFilterBlocksMeta)
  commitment : Option Int
  accounts_data_slice : List SubscribeRequestAccountsDataSlice
  ping : Option SubscribeRequestPing
deriving DecidableEq, Repr

/-! ## Configuration surface (`Args`, `Action`, `ActionSubscribe`) -/

/-- `CommitmentLevel` of the proto, with its i32 wire values. -/
inductive CommitmentLevel
  | processed
  | confirmed
  | finalized
deriving DecidableEq, Repr

/-- The `as i32` cast applied by `commitment.map(|x| x as i32)`. -/
def CommitmentLevel.toI32 : CommitmentLevel → Int
  | .processed => 0
  | .confirmed => 1
  | .finalized => 2

/-- `ArgsCommitment`; `Processed` is the `#[default]` variant. -/
inductive ArgsCommitment
  | processed
  | confirmed
  | finalized
deriving DecidableEq, Repr

/-- `impl From<ArgsCommitment> for CommitmentLevel`. -/
def ArgsCommitment.toLevel : ArgsCommitment → CommitmentLevel
  | .processed => .processed
  | .confirmed => .confirmed
  | .finalized => .finalized

/-- `Args::get_commitment`: `Some(self.commitment.unwrap_or_default().into())`. -/
def get_commitment (commitment : Option ArgsCommitment) : Option CommitmentLevel :=
  some (commitment.getD ArgsCommitment.processed).toLevel

/-- `ActionSubscribe`: the user-level filter spec, field for field. -/
structure ActionSubscribe where
  accounts : Bool
  accounts_account : List String
  accounts_account_path : Option String
  accounts_owner : List String
  accounts_memcmp : List String
  accounts_datasize : Option Nat
  accounts_token_account_state : Bool
  accounts_data_slice : List String
  slots : Bool
  slots_filter_by_commitment : Bool
  transactions : Bool
  transactions_vote : Option Bool
  transactions_failed : Option Bool
  transactions_signature : Option String
  transactions_account_include : List String
  transactions_account_exclude : List String
  transactions_account_required : List String
  transactions_status : Bool
  transactions_status_vote : Option Bool
  transactions_status_failed : Option Bool
  transactions_status_signature : Option String
  transactions_status_account_include : List String
  transactions_status_account_exclude : List String
  transactions_status_account_required : List String
  entry : Bool
  blocks : Bool
  blocks_account_include : List String
  blocks_include_transactions : Option Bool
  blocks_include_accounts : Option Bool
  blocks_include_entries : Option Bool
  blocks_meta : Bool
  ping : Option Int
  resub : Option Nat
deriving DecidableEq, Repr

/-- The `Action` enum of the client. -/
inductive Action
  | healthCheck
  | healthWatch
  | subscribe (args : ActionSubscribe)
  | ping (count : Int)
  | getLatestBlockhash
  | getBlockHeight
  | getSlot
  | isBlockhashValid (blockhash : String)
  | getVersion
deriving DecidableEq, Repr

/-- Builder failures (the `anyhow::bail!`/`anyhow!` sites of
`get_subscribe_request`, plus the `accounts_account_path` read). -/
inductive ConfigError
  | invalidOffset
  | invalidMemcmp
  | invalidDataSlice
  | pathReadFailed
deriving DecidableEq, Repr

/-! ## Filter Spec Builder (`Action::get_subscribe_request`) -/

/-- Parse one `"offset,base58data"` memcmp option string: split on the
first comma, parse the offset as `u64` (`anyhow!("invalid offset")` on
failure), trim the data; no comma is `bail!("invalid memcmp")`. -/
def parseMemcmp (s : String) : Except ConfigError SubscribeRequestFilterAccountsFilter :=
  match splitOnce s ',' with
  | some (offsetStr, dataStr) =>
    match parseU64 offsetStr with
    | some off =>
      .ok ⟨some (.memcmp ⟨off, some (.base58 (strTrim dataStr))⟩)⟩
    | none => .error .invalidOffset
  | none => .error .invalidMemcmp

/-- The `for filter in args.accounts_memcmp.iter()` loop: first failure
aborts the whole build. -/
def parseMemcmpList : List String → Except ConfigError (List SubscribeRequestFilterAccountsFilter)
  | [] => .ok []
  | s :: rest => do
    let f ← parseMemcmp s
    let fs ← parseMemcmpList rest
    .ok (f :: fs)

/-- Parse one `"offset,length"` data-slice option string: split on the
first comma and parse both sides as `u64`; any failure is
`bail!("invalid data_slice")`. -/
def parseDataSlice (s : String) : Except ConfigError SubscribeRequestAccountsDataSlice :=
  match splitOnce s ',' with
  | some (offsetStr, lengthStr) =>
    match parseU64 offsetStr, parseU64 lengthStr with
    | some off, some len => .ok ⟨off, len⟩
    | _, _ => .error .invalidDataSlice
  | none => .error .invalidDataSlice

/-- The `for data_slice in args.accounts_data_slice.iter()` loop. -/
def parseDataSliceList : List String → Except ConfigError (List SubscribeRequestAccountsDataSlice)
  | [] => .ok []
  | s :: rest => do
    let d ← parseDataSlice s
    let ds ← parseDataSliceList rest
    .ok (d :: ds)

/-- Re-serialize a data slice back to its `"offset,length"` option-string
form. -/
def serializeDataSlice (d : SubscribeRequestAccountsDataSlice) : String :=
  natRepr d.offset ++ "," ++ natRepr d.length

/-- The `accounts` branch of the builder: the optional external address
file is the injected collaborator `readPath`; the memcmp, datasize and
token-account-state predicates are appended in source order; the single
group is inserted under the fixed key "client". -/
def buildAccounts (args : ActionSubscribe)
    (readPath : String → Except ConfigError (List String)) :
    Except ConfigError (List (String × SubscribeRequestFilterAccounts)) :=
  if args.accounts then do
    let fromPath ←
      match args.accounts_account_path with
      | some p => readPath p
      | none => pure []
    let accountsAccount := args.accounts_account ++ fromPath
    let memcmps ← parseMemcmpList args.accounts_memcmp
    let withSize := memcmps ++
      (match args.accounts_datasize with
       | some n => [⟨some (.datasize n)⟩]
       | none => [])
    let filters := withSize ++
      (if args.accounts_token_account_state
       then [⟨some (.tokenAccountState true)⟩]
       else [])
    pure [("client", ⟨accountsAccount, args.accounts_owner, filters⟩)]
  else
    pure []

/-- `Action::get_subscribe_request`: `none` result for every non-Subscribe
action; for Subscribe, each boolean-gated category contributes either the
empty map or the single group keyed "client", in source order, and the
data-slice strings are parsed last. -/
def get_subscribe_request (action : Action)
    (readPath : String → Except ConfigError (List String))
    (commitment : Option CommitmentLevel) :
    Except ConfigError (Option (SubscribeRequest × Nat)) :=
  match action with
  | .subscribe args => do
    let accounts ← buildAccounts args readPath
    let slots : List (String × SubscribeRequestFilterSlots) :=
      if args.slots then [("client", ⟨some args.slots_filter_by_commitment⟩)] else []
    let transactions : List (String × SubscribeRequestFilterTransactions) :=
      if args.transactions then
        [("client", ⟨args.transactions_vote, args.transactions_failed,
          args.transactions_signature, args.transactions_account_include,
          args.transactions_account_exclude, args.transactions_account_required⟩)]
      else []
    let transactionsStatus : List (String × SubscribeRequestFilterTransactions) :=
      if args.transactions_status then
        [("client", ⟨args.transactions_status_vote, args.transactions_status_failed,
          args.transactions_status_signature, args.transactions_status_account_include,
          args.transactions_status_account_exclude, args.transactions_status_account_required⟩)]
      else []
    let entry : List (String × SubscribeRequestFilterEntry) :=
      if args.entry then [("client", ⟨⟩)] else []
    let blocks : List (String × SubscribeRequestFilterBlocks) :=
      if args.blocks then
        [("client", ⟨args.blocks_account_include, args.blocks_include_transactions,
          args.blocks_include_accounts, args.blocks_include_entries⟩)]
      else []
    let blocksMeta : List (String × SubscribeRequestFilterBlocksMeta) :=
      if args.blocks_meta then [("client", ⟨⟩)] else []
    let accountsDataSlice ← parseDataSliceList args.accounts_data_slice
    let ping := args.ping.map (fun id => SubscribeRequestPing.mk id)
    pure (some
      ({ slots := slots
         accounts := accounts
         transactions := transactions
         transactions_status := transactionsStatus
         entry := entry
         blocks := blocks
         blocks_meta := blocksMeta
         commitment := commitment.map CommitmentLevel.toI32
         accounts_data_slice := accountsDataSlice
         ping := ping },
       args.resub.getD 0))
  | _ => .ok none

/-! ## Update Decoder

The `From` conversions of `AccountPretty`, `TransactionPretty` and
`TransactionStatusPretty`.  Raw byte vectors are `List Nat` (each entry a
byte value).  A Rust `expect` failure, i.e. a panic, is modelled as
`Except.error` carrying the `expect` message; `Pubkey::try_from` succeeds
exactly on 32-byte inputs and `Signature::try_from` exactly on 64-byte
inputs. -/

/-- Hex digit characters, lowercase. -/
def hexDigitChar (d : Nat) : Char :=
  match d with
  | 0 => '0' | 1 => '1' | 2 => '2' | 3 => '3' | 4 => '4'
  | 5 => '5' | 6 => '6' | 7 => '7' | 8 => '8' | 9 => '9'
  | 10 => 'a' | 11 => 'b' | 12 => 'c' | 13 => 'd' | 14 => 'e'
  | _ => 'f'

/-- Model of `hex::encode`: two lowercase hex digits per byte. -/
def hexEncode (bytes : List Nat) : String :=
  ⟨bytes.foldr (fun b acc => hexDigitChar (b / 16 % 16) :: hexDigitChar (b % 16) :: acc) []⟩

/-- The base58 alphabet in digit order. -/
def base58Digit (d : Nat) : Char :=
  (("123456789ABCDEFGHJKLMNPQRSTUVWXYZabcdefghijkmnopqrstuvwxyz").data.getD d '1')

/-- Big-endian base58 digit characters of a positive value. -/
def natToBase58Aux (n : Nat) (acc : List Char) : List Char :=
  if n = 0 then acc
  else natToBase58Aux (n / 58) (base58Digit (n % 58) :: acc)
termination_by n
decreasing_by exact Nat.div_lt_self (by omega) (by omega)

/-- Model of `bs58::encode(..).into_string()`: one '1' per leading zero
byte, then the base58 digits of the remaining big-endian value. -/
def bs58Encode (bytes : List Nat) : String :=
  let zeros := (bytes.takeWhile (fun b => b % 256 = 0)).length
  let value := bytes.foldl (fun acc b => acc * 256 + b % 256) 0
  ⟨List.replicate zeros '1' ++ natToBase58Aux value []⟩

/-- The account payload message (`SubscribeUpdateAccountInfo`). -/
structure SubscribeUpdateAccountInfo where
  pubkey : List Nat
  lamports : Nat
  owner : List Nat
  executable : Bool
  rent_epoch : Nat
  data : List Nat
  write_version : Nat
  txn_signature : Option (List Nat)
deriving DecidableEq, Repr

structure SubscribeUpdateAccount where
  is_startup : Bool
  slot : Nat
  account : Option SubscribeUpdateAccountInfo
deriving DecidableEq, Repr

/-- The transaction payload message (`SubscribeUpdateTransactionInfo`).
The inner `transaction` body and `meta` are consumed by the external
wire-conversion collaborator `create_tx_with_meta`, which requires both to
be present; their contents are opaque to this client and modelled as raw
bytes. -/
structure SubscribeUpdateTransactionInfo where
  signature : List Nat
  is_vote : Bool
  transaction : Option (List Nat)
  meta : Option (List Nat)
  index : Nat
deriving DecidableEq, Repr

structure SubscribeUpdateTransaction where
  transaction : Option SubscribeUpdateTransactionInfo
  slot : Nat
deriving DecidableEq, Repr

structure SubscribeUpdateTransactionStatus where
  slot : Nat
  signature : List Nat
  is_vote : Bool
  index : Nat
  err : Option (List Nat)
deriving DecidableEq, Repr

structure AccountPretty where
  is_startup : Bool
  slot : Nat
  pubkey : List Nat
  lamports : Nat
  owner : List Nat
  executable : Bool
  rent_epoch : Nat
  data : String
  write_version : Nat
  txn_signature : String
deriving DecidableEq, Repr

/-- `impl From<SubscribeUpdateAccount> for AccountPretty`.  The `expect`
panics of the source become errors carrying the `expect` message: the
absent payload (`"should be defined"`) and a pubkey or owner that is not
32 bytes (`"valid pubkey"`). -/
def decodeAccount (u : SubscribeUpdateAccount) : Except String AccountPretty :=
  match u.account with
  | none => .error "should be defined"
  | some acc =>
    if acc.pubkey.length = 32 then
      if acc.owner.length = 32 then
        .ok { is_startup := u.is_startup
              slot := u.slot
              pubkey := acc.pubkey
              lamports := acc.lamports
              owner := acc.owner
              executable := acc.executable
              rent_epoch := acc.rent_epoch
              data := hexEncode acc.data
              write_version := acc.write_version
              txn_signature := bs58Encode (acc.txn_signature.getD []) }
      else .error "valid pubkey"
    else .error "valid pubkey"

/-- Decoded transaction record.  The `tx` field stands for the encoded
transaction-with-meta produced by the external codec
(`create_tx_with_meta` + `encode`); the client treats it opaquely, so the
model carries the payload through. -/
structure TransactionPretty where
  slot : Nat
  signature : List Nat
  is_vote : Bool
  tx : SubscribeUpdateTransactionInfo
deriving DecidableEq, Repr

/-- `impl From<SubscribeUpdateTransaction> for TransactionPretty`.  Panics
modelled, in the source's field-evaluation order: absent transaction body
(`"should be defined"`), a signature that is not 64 bytes
(`"valid signature"`), and `create_tx_with_meta` requiring the inner
transaction and meta to be present (`"valid tx with meta"`). -/
def decodeTransaction (u : SubscribeUpdateTransaction) : Except String TransactionPretty :=
  match u.transaction with
  | none => .error "should be defined"
  | some tx =>
    if tx.signature.length = 64 then
      match tx.transaction, tx.meta with
      | some _, some _ =>
        .ok { slot := u.slot
              signature := tx.signature
              is_vote := tx.is_vote
              tx := tx }
      | _, _ => .error "valid tx with meta"
    else .error "valid signature"

/-- Decoded transaction-status record.  The `err` field carries the wire
error bytes through; their bincode decoding (`create_tx_error`) is the
external codec. -/
structure TransactionStatusPretty where
  slot : Nat
  signature : List Nat
  is_vote : Bool
  index : Nat
  err : Option (List Nat)
deriving DecidableEq, Repr

/-- `impl From<SubscribeUpdateTransactionStatus> for
TransactionStatusPretty`.  The signature panic (`"valid signature"`) is
modelled; the bincode decode of the error bytes is the external codec,
modelled as the identity pass-through. -/
def decodeTransactionStatus (u : SubscribeUpdateTransactionStatus) :
    Except String TransactionStatusPretty :=
  if u.signature.length = 64 then
    .ok { slot := u.slot
          signature := u.signature
          is_vote := u.is_vote
          index := u.index
          err := u.err }
  else .error "valid signature"

/-! ## Streaming Session (`geyser_subscribe`) -/

/-- The tagged update union (`subscribe_update::UpdateOneof`).  Variants
whose payload the loop never inspects carry no data. -/
inductive UpdateOneof
  | account (a : SubscribeUpdateAccount)
  | transaction (t : SubscribeUpdateTransaction)
  | transactionStatus (s : SubscribeUpdateTransactionStatus)
  | slot (n : Nat)
  | block
  | blockMeta
  | entry
  | ping
  | pong
deriving DecidableEq, Repr

/-- One inbound item from `stream.next()`: a message whose
`update_oneof` may be absent, or a stream error (`Err(Status)`). -/
inductive StreamItem
  | ok (msg : Option UpdateOneof)
  | err
deriving DecidableEq, Repr

/-- The ping acknowledgment frame: `SubscribeRequest` with only
`ping: Some(SubscribeRequestPing { id: 1 })` set (`..Default::default()`). -/
def ackRequest : SubscribeRequest :=
  { slots := []
    accounts := []
    transactions := []
    transactions_status := []
    entry := []
    blocks := []
    blocks_meta := []
    commitment := none
    accounts_data_slice := []
    ping := some ⟨1⟩ }

/-- The resubscription frame sent when the counter reaches the threshold:
a fresh default slots filter under "client", every other category empty,
commitment, data slice and ping cleared. -/
def resubRequest : SubscribeRequest :=
  { slots := [("client", ⟨none⟩)]
    accounts := []
    transactions := []
    transactions_status := []
    entry := []
    blocks := []
    blocks_meta := []
    commitment := none
    accounts_data_slice := []
    ping := none }

/-- Observable session events: reading one inbound item, or sending one
outbound frame on `subscribe_tx`. -/
inductive Event
  | read (item : StreamItem)
  | send (request : SubscribeRequest)
deriving DecidableEq, Repr

/-- How `geyser_subscribe` returned: `ok` models `Ok(())` (this includes
the stream-error arm, which `break`s out of the loop and then returns
`Ok`), `panicked` models a decode `expect` panic unwinding the task. -/
inductive SessionResult
  | ok
  | panicked
deriving DecidableEq, Repr

/-- The observable outcome of one `geyser_subscribe` run: the ordered
trace of reads and sends, the final value of the local `counter`, and how
the function returned. -/
structure SessionRun where
  trace : List Event
  counter : Nat
  result : SessionResult
deriving DecidableEq, Repr

/-- Control-flow class of one loop iteration, read off the source's
`match` arms: `stopErr` is the `Err(_) => break` arm; `stopPanic` is a
decoded arm whose conversion panics; `passthrough` is a decoded arm whose
`continue` skips the counter increment; `counted` falls through to
`counter += 1` (the `Ping` arm, which first sends the ack, and the `_`
arm covering `Slot`, `Block`, `BlockMeta`, `Entry`, `Pong` and an absent
`update_oneof`). -/
inductive FrameClass
  | stopErr
  | stopPanic
  | passthrough
  | counted (sendsAck : Bool)
deriving DecidableEq, Repr

/-- Classify one inbound item according to the loop's `match`. -/
def classify (item : StreamItem) : FrameClass :=
  match item with
  | .err => .stopErr
  | .ok msg =>
    match msg with
    | some (.account a) =>
      match decodeAccount a with
      | .ok _ => .passthrough
      | .error _ => .stopPanic
    | some (.transaction t) =>
      match decodeTransaction t with
      | .ok _ => .passthrough
      | .error _ => .stopPanic
    | some (.transactionStatus s) =>
      match decodeTransactionStatus s with
      | .ok _ => .passthrough
      | .error _ => .stopPanic
    | some .ping => .counted true
    | _ => .counted false

/-- The receive loop of `geyser_subscribe`, with threshold `resub` and
current counter value `c`.  An exhausted list is the stream ending
cleanly.  The `counted` class increments the counter and, if it now
equals the threshold, sends the resubscription request; the `Ping` arm
additionally sends the ack first. -/
def geyserSubscribe (resub : Nat) : List StreamItem → Nat → SessionRun
  | [], c => ⟨[], c, .ok⟩
  | item :: rest, c =>
    match classify item with
    | .stopErr => ⟨[.read item], c, .ok⟩
    | .stopPanic => ⟨[.read item], c, .panicked⟩
    | .passthrough =>
      let r := geyserSubscribe resub rest c
      ⟨.read item :: r.trace, r.counter, r.result⟩
    | .counted sendsAck =>
      let c' := c + 1
      let ackEvents : List Event := if sendsAck then [.send ackRequest] else []
      let resubEvents : List Event := if c' = resub then [.send resubRequest] else []
      let r := geyserSubscribe resub rest c'
      ⟨.read item :: (ackEvents ++ resubEvents ++ r.trace), r.counter, r.result⟩

/-- Items that reach `counter += 1`. -/
def counts (item : StreamItem) : Bool :=
  match classify item with
  | .counted _ => true
  | _ => false

/-- Items that terminate the loop (stream error, or a panicking decode). -/
def stops (item : StreamItem) : Bool :=
  match classify item with
  | .stopErr => true
  | .stopPanic => true
  | _ => false

/-- Number of counter increments a session over `items` performs: counted
items of the longest stop-free prefix. -/
def countedFrames (items : List StreamItem) : Nat :=
  (items.takeWhile (fun i => !stops i)).countP counts

/-- Number of resubscription sends in a trace. -/
def numResubs (t : List Event) : Nat :=
  t.countP (fun e => decide (e = Event.send resubRequest))

/-- Number of ping acknowledgments in a trace. -/
def numAcks (t : List Event) : Nat :=
  t.countP (fun e => decide (e = Event.send ackRequest))

/-- Whether an event is the read of an inbound `Ping` frame. -/
def isPingRead (e : Event) : Bool :=
  match e with
  | .read (.ok (some .ping)) => true
  | _ => false

/-- Number of inbound `Ping` reads in a trace. -/
def numPingReads (t : List Event) : Nat :=
  t.countP isPingRead

/-- Checks that every inbound `Ping` read is immediately followed by the
ack send: no other read and no other outbound frame intervenes. -/
def acksImmediate : List Event → Bool
  | [] => true
  | e :: rest =>
    if isPingRead e then
      match rest with
      | Event.send r :: rest' => decide (r = ackRequest) && acksImmediate rest'
      | _ => false
    else acksImmediate rest

/-! ## Connection Supervisor (`main`'s backoff retry loop) -/

/-- Outcome of one supervised attempt: the connect call failed, or a
session ran to a `SessionResult`. -/
inductive AttemptOutcome
  | connectFailed
  | sessionDone (r : SessionResult)
deriving DecidableEq, Repr

/-- What the supervisor does next. -/
inductive SupervisorDecision
  | success
  | retryTransient
  | processAbort
deriving DecidableEq, Repr

/-- The decision `main` takes on one attempt: a connect failure is mapped
to `backoff::Error::transient` and retried; `geyser_subscribe` returning
`Ok(())` completes the retry loop successfully; a panic unwinds past the
retry loop and aborts the process. -/
def superviseAttempt : AttemptOutcome → SupervisorDecision
  | .connectFailed => .retryTransient
  | .sessionDone .ok => .success
  | .sessionDone .panicked => .processAbort

/-- Outcome of running the Subscribe action end to end: a builder failure
is mapped to `backoff::Error::Permanent` before any request exists, else
the session runs with the built request and threshold. -/
inductive MainOutcome
  | permanentError (e : ConfigError)
  | expectPanic
  | session (initial : SubscribeRequest) (run : SessionRun)
deriving DecidableEq, Repr

/-- `main`'s Subscribe arm: build the request (failure is mapped to
`backoff::Error::Permanent` and nothing is ever sent), then run
`geyser_subscribe` with it; the initial request is the first outbound
frame, carried by `subscribe_with_request`.  An absent build result hits
the source's `.expect("expect subscribe action")` panic (unreachable for
the Subscribe action). -/
def mainSubscribe (args : ActionSubscribe)
    (readPath : String → Except ConfigError (List String))
    (commitment : Option ArgsCommitment) (inbound : List StreamItem) : MainOutcome :=
  match get_subscribe_request (.subscribe args) readPath (get_commitment commitment) with
  | .error e => .permanentError e
  | .ok none => .expectPanic
  | .ok (some (request, resub)) => .session request (geyserSubscribe resub inbound 0)

/-! ## Concrete sample values -/

/-- A well-formed account payload: 32-byte pubkey and owner. -/
def goodAccountInfo : SubscribeUpdateAccountInfo :=
  { pubkey := List.replicate 32 0
    lamports := 0
    owner := List.replicate 32 0
    executable := false
    rent_epoch := 0
    data := []
    write_version := 0
    txn_signature := none }

/-- An inbound `Account` frame that decodes successfully. -/
def goodAccountFrame : StreamItem :=
  .ok (some (.account { is_startup := false, slot := 0, account := some goodAccountInfo }))

/-- An inbound `Account` frame with the account payload absent. -/
def badAccountFrame : StreamItem :=
  .ok (some (.account { is_startup := false, slot := 0, account := none }))

/-- An inbound `Transaction` frame with the transaction body absent. -/
def badTransactionFrame : StreamItem :=
  .ok (some (.transaction { transaction := none, slot := 5 }))

/-- An inbound keepalive `Ping` frame. -/
def pingFrame : StreamItem := .ok (some .ping)

/-- An inbound `Slot` data frame. -/
def slotFrame : StreamItem := .ok (some (.slot 0))

/-- A subscribe spec with every gate off and no option strings. -/
def emptySubscribeArgs : ActionSubscribe :=
  { accounts := false
    accounts_account := []
    accounts_account_path := none
    accounts_owner := []
    accounts_memcmp := []
    accounts_datasize := none
    accounts_token_account_state := false
    accounts_data_slice := []
    slots := false
    slots_filter_by_commitment := false
    transactions := false
    transactions_vote := none
    transactions_failed := none
    transactions_signature := none
    transactions_account_include := []
    transactions_account_exclude := []
    transactions_account_required := []
    transactions_status := false
    transactions_status_vote := none
    transactions_status_failed := none
    transactions_status_signature := none
    transactions_status_account_include := []
    transactions_status_account_exclude := []
    transactions_status_account_required := []
    entry := false
    blocks := false
    blocks_account_include := []
    blocks_include_transactions := none
    blocks_include_accounts := none
    blocks_include_entries := none
    blocks_meta := false
    ping := none
    resub := none }

/-- A path-reading collaborator that returns no extra addresses. -/
def trivialReadPath : String → Except ConfigError (List String) := fun _ => .ok []

/-- A subscribe spec with every gate on and no option strings. -/
def fullSubscribeArgs : ActionSubscribe :=
  { emptySubscribeArgs with
    accounts := true
    slots := true
    transactions := true
    transactions_status := true
    entry := true
    blocks := true
    blocks_meta := true }

/-- The request built from `emptySubscribeArgs` with no commitment. -/
def emptyBuiltRequest : SubscribeRequest :=
  { slots := []
    accounts := []
    transactions := []
    transactions_status := []
    entry := []
    blocks := []
    blocks_meta := []
    commitment := none
    accounts_data_slice := []
    ping := none }

/-- The request built from `fullSubscribeArgs` with no commitment. -/
def fullBuiltRequest : SubscribeRequest :=
  { slots := [("client", ⟨some false⟩)]
    accounts := [("client", ⟨[], [], []⟩)]
    transactions := [("client", ⟨none, none, none, [], [], []⟩)]
    transactions_status := [("client", ⟨none, none, none, [], [], []⟩)]
    entry := [("client", ⟨⟩)]
    blocks := [("client", ⟨[], none, none, none⟩)]
    blocks_meta := [("client", ⟨⟩)]
    commitment := none
    accounts_data_slice := []
    ping := none }

/-- The request built from `emptySubscribeArgs` under the default
commitment resolution (`Processed`, i32 value 0). -/
def processedBuiltRequest : SubscribeRequest :=
  { emptyBuiltRequest with commitment := some 0 }

/-- A subscribe spec with one well-formed memcmp option string. -/
def memcmpArgs : ActionSubscribe :=
  { emptySubscribeArgs with accounts := true, accounts_memcmp := ["12,abc"] }

/-- A subscribe spec with a malformed memcmp option string (no comma). -/
def badMemcmpArgs : ActionSubscribe :=
  { emptySubscribeArgs with accounts := true, accounts_memcmp := ["nocomma"] }

/-- A subscribe spec with a malformed data-slice option string. -/
def badDataSliceArgs : ActionSubscribe :=
  { emptySubscribeArgs with accounts_data_slice := ["nocomma"] }

/-! ## Session lemmas -/

theorem ack_ne_resub : ackRequest ≠ resubRequest := by decide

theorem numResubs_nil : numResubs [] = 0 := rfl

theorem numResubs_cons (e : Event) (t : List Event) :
    numResubs (e :: t) = numResubs t + (if e = Event.send resubRequest then 1 else 0) := by
  simp [numResubs, List.countP_cons]

theorem numResubs_append (s t : List Event) :
    numResubs (s ++ t) = numResubs s + numResubs t := by
  simp [numResubs, List.countP_append]

theorem countedFrames_nil : countedFrames [] = 0 := rfl

theorem countedFrames_cons (i : StreamItem) (rest : List StreamItem) :
    countedFrames (i :: rest) =
      if stops i then 0 else (if counts i then 1 else 0) + countedFrames rest := by
  cases hs : stops i with
  | true => simp [countedFrames, List.takeWhile_cons, hs]
  | false => simp [countedFrames, List.takeWhile_cons, hs, List.countP_cons, Nat.add_comm]

/-- Exact count of resubscription sends, for an arbitrary starting counter
value: one if the threshold lies strictly beyond the starting value and
within reach of the counted frames, zero otherwise. -/
theorem numResubs_run (resub : Nat) (items : List StreamItem) :
    ∀ c : Nat,
      numResubs (geyserSubscribe resub items c).trace =
        if c < resub ∧ resub ≤ c + countedFrames items then 1 else 0 := by
  induction items with
  | nil =>
    intro c
    simp [geyserSubscribe, numResubs_nil, countedFrames_nil]
    split_ifs <;> omega
  | cons item rest ih =>
    intro c
    cases hcl : classify item with
    | stopErr =>
      have hs : stops item = true := by simp [stops, hcl]
      simp [geyserSubscribe, hcl, countedFrames_cons, hs, numResubs_cons, numResubs_nil]
      split_ifs <;> omega
    | stopPanic =>
      have hs : stops item = true := by simp [stops, hcl]
      simp [geyserSubscribe, hcl, countedFrames_cons, hs, numResubs_cons, numResubs_nil]
      split_ifs <;> omega
    | passthrough =>
      have hs : stops item = false := by simp [stops, hcl]
      have hc : counts item = false := by simp [counts, hcl]
      simp [geyserSubscribe, hcl, countedFrames_cons, hs, hc, numResubs_cons, ih c]
    | counted sendsAck =>
      have hs : stops item = false := by simp [stops, hcl]
      have hc : counts item = true := by simp [counts, hcl]
      have hackcount : ∀ b : Bool,
          numResubs (if b then [Event.send ackRequest] else []) = 0 := by
        intro b
        cases b <;> simp [numResubs_nil, numResubs_cons, ack_ne_resub]
      simp only [geyserSubscribe, hcl, numResubs_cons, numResubs_append,
        countedFrames_cons, hs, hc, hackcount, ih (c + 1)]
      by_cases hfire : c + 1 = resub
      · simp [hfire, numResubs_cons, numResubs_nil]
        split_ifs <;> omega
      · simp [hfire, numResubs_nil]
        split_ifs <;> omega

/-- C3: within one session the resubscribe action fires at most once, it
fires exactly when the counter reaches the configured threshold (the
number of counted frames reaches it, starting from zero), and a threshold
of zero never fires. -/
theorem C3_resub_fires_once_at_threshold (resub : Nat) (items : List StreamItem) :
    numResubs (geyserSubscribe resub items 0).trace =
      (if 0 < resub ∧ resub ≤ countedFrames items then 1 else 0) ∧
    numResubs (geyserSubscribe resub items 0).trace ≤ 1 := by
  have h := numResubs_run resub items 0
  simp only [Nat.zero_add] at h
  refine ⟨h, ?_⟩
  rw [h]
  split_ifs <;> omega

/-- C1 fails on the code: the `Account`, `Transaction` and
`TransactionStatus` arms `continue` past `counter += 1`, so three
decodable data frames after a ping never reach threshold 3 (no
resubscription is sent and the session ends cleanly with all four frames
read), while a lone `Ping` frame does increment the counter. -/
theorem C1_counterexample :
    numResubs (geyserSubscribe 3 [pingFrame, goodAccountFrame, goodAccountFrame,
      goodAccountFrame] 0).trace = 0 ∧
    (geyserSubscribe 3 [pingFrame, goodAccountFrame, goodAccountFrame,
      goodAccountFrame] 0).trace =
      [Event.read pingFrame, Event.send ackRequest, Event.read goodAccountFrame,
       Event.read goodAccountFrame, Event.read goodAccountFrame] ∧
    (geyserSubscribe 3 [pingFrame, goodAccountFrame, goodAccountFrame,
      goodAccountFrame] 0).result = SessionResult.ok ∧
    (geyserSubscribe 0 [pingFrame] 0).counter = 1 := by
  decide

/-- C1 amended: the frames that increment the counter are `Ping`, `Slot`,
`Block`, `BlockMeta`, `Entry`, `Pong` and a message with no recognized
update; `Account`, `Transaction` and `TransactionStatus` frames leave the
counter unchanged (their arms skip the rest of the loop body), so with
threshold 3 the inbound sequence of one ping and three account data
frames never triggers resubscription. -/
theorem C1_amended_counter_increments (c resub n : Nat) (a : SubscribeUpdateAccount)
    (t : SubscribeUpdateTransaction) (s : SubscribeUpdateTransactionStatus) :
    (geyserSubscribe resub [.ok (some .ping)] c).counter = c + 1 ∧
    (geyserSubscribe resub [.ok (some (.slot n))] c).counter = c + 1 ∧
    (geyserSubscribe resub [.ok (some .block)] c).counter = c + 1 ∧
    (geyserSubscribe resub [.ok (some .blockMeta)] c).counter = c + 1 ∧
    (geyserSubscribe resub [.ok (some .entry)] c).counter = c + 1 ∧
    (geyserSubscribe resub [.ok (some .pong)] c).counter = c + 1 ∧
    (geyserSubscribe resub [.ok none] c).counter = c + 1 ∧
    (geyserSubscribe resub [.ok (some (.account a))] c).counter = c ∧
    (geyserSubscribe resub [.ok (some (.transaction t))] c).counter = c ∧
    (geyserSubscribe resub [.ok (some (.transactionStatus s))] c).counter = c ∧
    numResubs (geyserSubscribe 3 [pingFrame, goodAccountFrame, goodAccountFrame,
      goodAccountFrame] 0).trace = 0 := by
  refine ⟨?_, ?_, ?_, ?_, ?_, ?_, ?_, ?_, ?_, ?_, by decide⟩
  · simp [geyserSubscribe, classify]
  · simp [geyserSubscribe, classify]
  · simp [geyserSubscribe, classify]
  · simp [geyserSubscribe, classify]
  · simp [geyserSubscribe, classify]
  · simp [geyserSubscribe, classify]
  · simp [geyserSubscribe, classify]
  · cases hd : decodeAccount a <;> simp [geyserSubscribe, classify, hd]
  · cases hd : decodeTransaction t <;> simp [geyserSubscribe, classify, hd]
  · cases hd : decodeTransactionStatus s <;> simp [geyserSubscribe, classify, hd]

/-- Appending a stream error after a stop-free prefix: the loop processes
the prefix, reads the error, breaks without reading anything further, and
returns `Ok` with the counter as of the break. -/
theorem run_append_err (resub : Nat) :
    ∀ (pre rest : List StreamItem) (c : Nat), (∀ i ∈ pre, stops i = false) →
      geyserSubscribe resub (pre ++ StreamItem.err :: rest) c =
        ⟨(geyserSubscribe resub pre c).trace ++ [Event.read StreamItem.err],
         (geyserSubscribe resub pre c).counter, SessionResult.ok⟩ := by
  intro pre
  induction pre with
  | nil =>
    intro rest c _
    simp [geyserSubscribe, classify]
  | cons i pre' ih =>
    intro rest c hpre
    have hi : stops i = false := hpre i (List.mem_cons_self i pre')
    have hpre' : ∀ j ∈ pre', stops j = false := fun j hj => hpre j (List.mem_cons_of_mem i hj)
    cases hcl : classify i with
    | stopErr => simp [stops, hcl] at hi
    | stopPanic => simp [stops, hcl] at hi
    | passthrough =>
      simp [geyserSubscribe, hcl, ih rest c hpre']
    | counted sendsAck =>
      simp [geyserSubscribe, hcl, ih rest (c + 1) hpre']

/-- C2 fails on the code: when the stream yields an error the loop logs
it and `break`s, after which `geyser_subscribe` returns `Ok(())`; the
supervisor's retry loop therefore completes successfully instead of
seeing a transient failure and retrying. -/
theorem C2_counterexample :
    (geyserSubscribe 0 [slotFrame, StreamItem.err] 0).result = SessionResult.ok ∧
    superviseAttempt (.sessionDone
      (geyserSubscribe 0 [slotFrame, StreamItem.err] 0).result) =
      SupervisorDecision.success ∧
    SupervisorDecision.success ≠ SupervisorDecision.retryTransient := by
  decide

/-- C2 amended: if the inbound stream yields an error mid-session, the
session stops reading (nothing after the error is consumed), but the
error is only logged, not propagated: `geyser_subscribe` returns `Ok` and
the supervisor treats the attempt as a success, so no retry happens. -/
theorem C2_amended_error_logged_not_propagated (resub c : Nat)
    (pre rest : List StreamItem) (hpre : ∀ i ∈ pre, stops i = false) :
    (geyserSubscribe resub (pre ++ StreamItem.err :: rest) c).trace =
      (geyserSubscribe resub pre c).trace ++ [Event.read StreamItem.err] ∧
    (geyserSubscribe resub (pre ++ StreamItem.err :: rest) c).result = SessionResult.ok ∧
    superviseAttempt (.sessionDone
      (geyserSubscribe resub (pre ++ StreamItem.err :: rest) c).result) =
      SupervisorDecision.success := by
  rw [run_append_err resub pre rest c hpre]
  exact ⟨rfl, rfl, rfl⟩

/-- Witness for the amended C2 at a concrete session: one ping before the
error, one unread frame after it. -/
theorem C2_amended_witness :
    (geyserSubscribe 0 ([pingFrame] ++ StreamItem.err :: [slotFrame]) 0).trace =
      (geyserSubscribe 0 [pingFrame] 0).trace ++ [Event.read StreamItem.err] ∧
    (geyserSubscribe 0 ([pingFrame] ++ StreamItem.err :: [slotFrame]) 0).result =
      SessionResult.ok ∧
    superviseAttempt (.sessionDone
      (geyserSubscribe 0 ([pingFrame] ++ StreamItem.err :: [slotFrame]) 0).result) =
      SupervisorDecision.success :=
  C2_amended_error_logged_not_propagated 0 0 [pingFrame] [slotFrame] (by decide)

/-- C5 fails on the code: an `Account` frame without its account payload
(and likewise a `Transaction` frame without its body) hits an `expect`
panic, which unwinds past the backoff retry loop and aborts the process;
it is not turned into a transient error and the supervisor never gets to
reconnect. -/
theorem C5_counterexample :
    (geyserSubscribe 0 [badAccountFrame] 0).result = SessionResult.panicked ∧
    (geyserSubscribe 0 [badTransactionFrame] 0).result = SessionResult.panicked ∧
    superviseAttempt (.sessionDone
      (geyserSubscribe 0 [badAccountFrame] 0).result) =
      SupervisorDecision.processAbort ∧
    SupervisorDecision.processAbort ≠ SupervisorDecision.retryTransient := by
  decide

/-- C5 amended: a structurally required field that is absent (account
payload on an `Account` frame, transaction body on a `Transaction` frame)
makes the decode panic with the `expect` message, the session ends
immediately in the panicked state without reading further, and the
process aborts rather than the supervisor reconnecting. -/
theorem C5_amended_missing_field_panics (a : SubscribeUpdateAccount)
    (t : SubscribeUpdateTransaction) (resub c : Nat) (rest : List StreamItem)
    (ha : a.account = none) (ht : t.transaction = none) :
    decodeAccount a = .error "should be defined" ∧
    decodeTransaction t = .error "should be defined" ∧
    geyserSubscribe resub (.ok (some (.account a)) :: rest) c =
      ⟨[Event.read (.ok (some (.account a)))], c, .panicked⟩ ∧
    geyserSubscribe resub (.ok (some (.transaction t)) :: rest) c =
      ⟨[Event.read (.ok (some (.transaction t)))], c, .panicked⟩ ∧
    superviseAttempt (.sessionDone SessionResult.panicked) =
      SupervisorDecision.processAbort := by
  have hda : decodeAccount a = .error "should be defined" := by
    simp [decodeAccount, ha]
  have hdt : decodeTransaction t = .error "should be defined" := by
    simp [decodeTransaction, ht]
  refine ⟨hda, hdt, ?_, ?_, rfl⟩
  · simp [geyserSubscribe, classify, hda]
  · simp [geyserSubscribe, classify, hdt]

/-- Witness for the amended C5 at concrete frames with the required
fields absent. -/
theorem C5_amended_witness :
    decodeAccount ⟨false, 0, none⟩ = .error "should be defined" ∧
    decodeTransaction ⟨none, 5⟩ = .error "should be defined" ∧
    geyserSubscribe 0 (.ok (some (.account ⟨false, 0, none⟩)) :: []) 0 =
      ⟨[Event.read (.ok (some (.account ⟨false, 0, none⟩)))], 0, .panicked⟩ ∧
    geyserSubscribe 0 (.ok (some (.transaction ⟨none, 5⟩)) :: []) 0 =
      ⟨[Event.read (.ok (some (.transaction ⟨none, 5⟩)))], 0, .panicked⟩ ∧
    superviseAttempt (.sessionDone SessionResult.panicked) =
      SupervisorDecision.processAbort :=
  C5_amended_missing_field_panics ⟨false, 0, none⟩ ⟨none, 5⟩ 0 0 [] rfl rfl

theorem numAcks_nil : numAcks [] = 0 := rfl

theorem numAcks_cons (e : Event) (t : List Event) :
    numAcks (e :: t) = numAcks t + (if e = Event.send ackRequest then 1 else 0) := by
  simp [numAcks, List.countP_cons]

theorem numAcks_append (s t : List Event) :
    numAcks (s ++ t) = numAcks s + numAcks t := by
  simp [numAcks, List.countP_append]

theorem numPingReads_nil : numPingReads [] = 0 := rfl

theorem numPingReads_cons (e : Event) (t : List Event) :
    numPingReads (e :: t) = numPingReads t + (if isPingRead e then 1 else 0) := by
  simp [numPingReads, List.countP_cons, Nat.add_comm]

theorem numPingReads_append (s t : List Event) :
    numPingReads (s ++ t) = numPingReads s + numPingReads t := by
  simp [numPingReads, List.countP_append]

theorem ping_read_iff (i : StreamItem) :
    isPingRead (Event.read i) = true ↔ i = StreamItem.ok (some UpdateOneof.ping) := by
  cases i with
  | err => simp [isPingRead]
  | ok msg =>
    cases msg with
    | none => simp [isPingRead]
    | some u => cases u <;> simp [isPingRead]

/-- Only the `Ping` arm is classified `counted true`. -/
theorem classify_counted_true (i : StreamItem) (h : classify i = FrameClass.counted true) :
    i = StreamItem.ok (some UpdateOneof.ping) := by
  cases i with
  | err => simp [classify] at h
  | ok msg =>
    cases msg with
    | none => simp [classify] at h
    | some u =>
      cases u with
      | account a => cases hd : decodeAccount a <;> simp [classify, hd] at h
      | transaction t => cases hd : decodeTransaction t <;> simp [classify, hd] at h
      | transactionStatus s => cases hd : decodeTransactionStatus s <;> simp [classify, hd] at h
      | slot n => simp [classify] at h
      | block => simp [classify] at h
      | blockMeta => simp [classify] at h
      | entry => simp [classify] at h
      | ping => rfl
      | pong => simp [classify] at h

theorem not_ping_read_of_classify_ne (i : StreamItem)
    (h : classify i ≠ FrameClass.counted true) : isPingRead (Event.read i) = false := by
  cases hx : isPingRead (Event.read i) with
  | false => rfl
  | true =>
    have hi := (ping_read_iff i).mp hx
    subst hi
    exact absurd rfl h

theorem isPingRead_send (r : SubscribeRequest) : isPingRead (Event.send r) = false := rfl

theorem acksImmediate_skip (e : Event) (t : List Event) (h : isPingRead e = false) :
    acksImmediate (e :: t) = acksImmediate t := by
  rw [acksImmediate.eq_def]
  simp [h]

theorem acksImmediate_ping_step (e : Event) (r : SubscribeRequest) (t : List Event)
    (h : isPingRead e = true) :
    acksImmediate (e :: Event.send r :: t) = (decide (r = ackRequest) && acksImmediate t) := by
  rw [acksImmediate.eq_def]
  simp [h]

/-- Every inbound `Ping` read in a session trace is immediately followed
by the ack send, and acks and ping reads are in bijection. -/
theorem acks_invariant (resub : Nat) :
    ∀ (items : List StreamItem) (c : Nat),
      acksImmediate (geyserSubscribe resub items c).trace = true ∧
      numAcks (geyserSubscribe resub items c).trace =
        numPingReads (geyserSubscribe resub items c).trace := by
  intro items
  induction items with
  | nil =>
    intro c
    exact ⟨rfl, rfl⟩
  | cons item rest ih =>
    intro c
    cases hcl : classify item with
    | stopErr =>
      have hrcl : classify item = FrameClass.stopErr := hcl
      have hp : isPingRead (Event.read item) = false :=
        not_ping_read_of_classify_ne item (by rw [hrcl]; intro hcontra; cases hcontra)
      constructor
      · simp [geyserSubscribe, hcl, acksImmediate_skip _ _ hp, acksImmediate]
      · simp [geyserSubscribe, hcl, numAcks_cons, numAcks_nil, numPingReads_cons,
          numPingReads_nil, hp]
    | stopPanic =>
      have hp : isPingRead (Event.read item) = false :=
        not_ping_read_of_classify_ne item (by rw [hcl]; intro hcontra; cases hcontra)
      constructor
      · simp [geyserSubscribe, hcl, acksImmediate_skip _ _ hp, acksImmediate]
      · simp [geyserSubscribe, hcl, numAcks_cons, numAcks_nil, numPingReads_cons,
          numPingReads_nil, hp]
    | passthrough =>
      have hp : isPingRead (Event.read item) = false :=
        not_ping_read_of_classify_ne item (by rw [hcl]; intro hcontra; cases hcontra)
      obtain ⟨ih1, ih2⟩ := ih c
      constructor
      · simp [geyserSubscribe, hcl, acksImmediate_skip _ _ hp, ih1]
      · simp [geyserSubscribe, hcl, numAcks_cons, numPingReads_cons, hp, ih2]
    | counted sendsAck =>
      obtain ⟨ih1, ih2⟩ := ih (c + 1)
      cases sendsAck with
      | true =>
        have hitem := classify_counted_true item hcl
        subst hitem
        have hra : resubRequest ≠ ackRequest := Ne.symm ack_ne_resub
        have hresub : ∀ t : List Event,
            acksImmediate ((if c + 1 = resub then [Event.send resubRequest] else []) ++ t) =
              acksImmediate t := by
          intro t
          by_cases hf : c + 1 = resub <;>
            simp [hf, acksImmediate_skip _ _ (isPingRead_send resubRequest)]
        have htr : (geyserSubscribe resub (StreamItem.ok (some UpdateOneof.ping) :: rest) c).trace =
            Event.read (StreamItem.ok (some UpdateOneof.ping)) :: Event.send ackRequest ::
              ((if c + 1 = resub then [Event.send resubRequest] else []) ++
                (geyserSubscribe resub rest (c + 1)).trace) := by
          simp [geyserSubscribe, hcl]
        have hping : isPingRead (Event.read (StreamItem.ok (some UpdateOneof.ping))) = true := rfl
        constructor
        · rw [htr, acksImmediate_ping_step _ _ _ hping]
          simp [hresub, ih1]
        · rw [htr]
          by_cases hf : c + 1 = resub
          · subst hf
            simp [numAcks_cons, numAcks_append, numAcks_nil, numPingReads_cons,
              numPingReads_append, numPingReads_nil, isPingRead, isPingRead_send,
              hra, ack_ne_resub, ih2]
          · simp [hf, numAcks_cons, numAcks_append, numAcks_nil, numPingReads_cons,
              numPingReads_append, numPingReads_nil, isPingRead, isPingRead_send,
              hra, ack_ne_resub, ih2]
      | false =>
        have hp : isPingRead (Event.read item) = false :=
          not_ping_read_of_classify_ne item (by rw [hcl]; intro hcontra; cases hcontra)
        have hra : resubRequest ≠ ackRequest := Ne.symm ack_ne_resub
        have htr : (geyserSubscribe resub (item :: rest) c).trace =
            Event.read item ::
              ((if c + 1 = resub then [Event.send resubRequest] else []) ++
                (geyserSubscribe resub rest (c + 1)).trace) := by
          simp [geyserSubscribe, hcl]
        constructor
        · rw [htr, acksImmediate_skip _ _ hp]
          have hresub : ∀ t : List Event,
              acksImmediate ((if c + 1 = resub then [Event.send resubRequest] else []) ++ t) =
                acksImmediate t := by
            intro t
            by_cases hf : c + 1 = resub <;>
              simp [hf, acksImmediate_skip _ _ (isPingRead_send resubRequest)]
          simp [hresub, ih1]
        · rw [htr]
          by_cases hf : c + 1 = resub
          · subst hf
            simp [numAcks_cons, numAcks_append, numAcks_nil, numPingReads_cons,
              numPingReads_append, numPingReads_nil, hp, isPingRead_send,
              hra, ack_ne_resub, ih2]
          · simp [hf, numAcks_cons, numAcks_append, numAcks_nil, numPingReads_cons,
              numPingReads_append, numPingReads_nil, hp, isPingRead_send,
              hra, ack_ne_resub, ih2]

/-- C4: every inbound `Ping` frame is answered by exactly one ack bearing
the fixed echo id, sent immediately: in the session trace the ack
directly follows the ping read, so it precedes the next read and every
other outbound frame, and the number of acks equals the number of ping
reads; on the scripted inbound sequence [Ping, Account, Ping] exactly two
acks are sent, each directly after its ping. -/
theorem C4_ping_ack_ordering (resub : Nat) (items : List StreamItem) (c : Nat) :
    acksImmediate (geyserSubscribe resub items c).trace = true ∧
    numAcks (geyserSubscribe resub items c).trace =
      numPingReads (geyserSubscribe resub items c).trace ∧
    ackRequest.ping = some ⟨1⟩ ∧
    (geyserSubscribe 0 [pingFrame, goodAccountFrame, pingFrame] 0).trace =
      [Event.read pingFrame, Event.send ackRequest, Event.read goodAccountFrame,
       Event.read pingFrame, Event.send ackRequest] ∧
    numAcks (geyserSubscribe 0 [pingFrame, goodAccountFrame, pingFrame] 0).trace = 2 := by
  obtain ⟨h1, h2⟩ := acks_invariant resub items c
  exact ⟨h1, h2, rfl, by decide, by decide⟩

/-- Every outbound frame the receive loop sends is either the ping ack or
the resubscription request. -/
theorem sends_ack_or_resub (resub : Nat) :
    ∀ (items : List StreamItem) (c : Nat) (r : SubscribeRequest),
      Event.send r ∈ (geyserSubscribe resub items c).trace →
      r = ackRequest ∨ r = resubRequest := by
  intro items
  induction items with
  | nil =>
    intro c r h
    simp [geyserSubscribe] at h
  | cons item rest ih =>
    intro c r h
    cases hcl : classify item with
    | stopErr => simp [geyserSubscribe, hcl] at h
    | stopPanic => simp [geyserSubscribe, hcl] at h
    | passthrough =>
      simp only [geyserSubscribe, hcl, List.mem_cons] at h
      rcases h with h | h
      · exact absurd h (by simp)
      · exact ih c r h
    | counted b =>
      simp only [geyserSubscribe, hcl, List.mem_cons, List.mem_append] at h
      rcases h with h | (h | h) | h
      · exact absurd h (by simp)
      · cases b with
        | true =>
          simp at h
          exact Or.inl h
        | false => simp at h
      · by_cases hf : c + 1 = resub
        · simp [hf] at h
          exact Or.inr h
        · simp [hf] at h
      · exact ih (c + 1) r h

/-- C8: every outbound frame of the loop other than the ping ack is the
resubscription request, and it carries exactly a fresh default slots
filter under the fixed label "client", empty maps for every other
category, and cleared commitment, data-slice and ping fields. -/
theorem C8_resub_request_shape (resub : Nat) (items : List StreamItem) (c : Nat)
    (r : SubscribeRequest)
    (hmem : Event.send r ∈ (geyserSubscribe resub items c).trace)
    (hne : r ≠ ackRequest) :
    r.slots = [("client", ⟨none⟩)] ∧ r.accounts = [] ∧ r.transactions = [] ∧
    r.transactions_status = [] ∧ r.entry = [] ∧ r.blocks = [] ∧ r.blocks_meta = [] ∧
    r.commitment = none ∧ r.accounts_data_slice = [] ∧ r.ping = none := by
  rcases sends_ack_or_resub resub items c r hmem with h | h
  · exact absurd h hne
  · subst h
    exact ⟨rfl, rfl, rfl, rfl, rfl, rfl, rfl, rfl, rfl, rfl⟩

/-- Witness for C8 at a session whose threshold 1 is reached by the first
ping, so the trace contains the resubscription send. -/
theorem C8_witness :
    resubRequest.slots = [("client", ⟨none⟩)] ∧ resubRequest.accounts = [] ∧
    resubRequest.transactions = [] ∧ resubRequest.transactions_status = [] ∧
    resubRequest.entry = [] ∧ resubRequest.blocks = [] ∧ resubRequest.blocks_meta = [] ∧
    resubRequest.commitment = none ∧ resubRequest.accounts_data_slice = [] ∧
    resubRequest.ping = none :=
  C8_resub_request_shape 1 [pingFrame] 0 resubRequest (by decide) (by decide)

/-! ## Filter Spec Builder lemmas -/

/-- Successful build of the Subscribe action, phrased through the results
of its two fallible sub-steps. -/
theorem get_subscribe_request_eq (args : ActionSubscribe)
    (readPath : String → Except ConfigError (List String))
    (commitment : Option CommitmentLevel)
    (accounts : List (String × SubscribeRequestFilterAccounts))
    (ds : List SubscribeRequestAccountsDataSlice)
    (hacc : buildAccounts args readPath = .ok accounts)
    (hds : parseDataSliceList args.accounts_data_slice = .ok ds) :
    get_subscribe_request (.subscribe args) readPath commitment =
      .ok (some
        ({ slots := if args.slots then [("client", ⟨some args.slots_filter_by_commitment⟩)] else []
           accounts := accounts
           transactions :=
             if args.transactions then
               [("client", ⟨args.transactions_vote, args.transactions_failed,
                 args.transactions_signature, args.transactions_account_include,
                 args.transactions_account_exclude, args.transactions_account_required⟩)]
             else []
           transactions_status :=
             if args.transactions_status then
               [("client", ⟨args.transactions_status_vote, args.transactions_status_failed,
                 args.transactions_status_signature, args.transactions_status_account_include,
                 args.transactions_status_account_exclude,
                 args.transactions_status_account_required⟩)]
             else []
           entry := if args.entry then [("client", ⟨⟩)] else []
           blocks :=
             if args.blocks then
               [("client", ⟨args.blocks_account_include, args.blocks_include_transactions,
                 args.blocks_include_accounts, args.blocks_include_entries⟩)]
             else []
           blocks_meta := if args.blocks_meta then [("client", ⟨⟩)] else []
           commitment := commitment.map CommitmentLevel.toI32
           accounts_data_slice := ds
           ping := args.ping.map (fun id => SubscribeRequestPing.mk id) },
         args.resub.getD 0)) := by
  simp [get_subscribe_request, hacc, hds, Except.bind, Bind.bind, Except.instMonad, Except.pure]

/-- A failing accounts step fails the whole build with the same error. -/
theorem get_subscribe_request_err_accounts (args : ActionSubscribe)
    (readPath : String → Except ConfigError (List String))
    (commitment : Option CommitmentLevel) (e : ConfigError)
    (hacc : buildAccounts args readPath = .error e) :
    get_subscribe_request (.subscribe args) readPath commitment = .error e := by
  simp [get_subscribe_request, hacc, Except.bind, Bind.bind, Except.instMonad]

/-- A failing data-slice parse fails the whole build with the same error. -/
theorem get_subscribe_request_err_ds (args : ActionSubscribe)
    (readPath : String → Except ConfigError (List String))
    (commitment : Option CommitmentLevel)
    (accounts : List (String × SubscribeRequestFilterAccounts)) (e : ConfigError)
    (hacc : buildAccounts args readPath = .ok accounts)
    (hds : parseDataSliceList args.accounts_data_slice = .error e) :
    get_subscribe_request (.subscribe args) readPath commitment = .error e := by
  simp [get_subscribe_request, hacc, hds, Except.bind, Bind.bind, Except.instMonad]

/-- With the accounts gate off, the accounts step yields the empty map. -/
theorem buildAccounts_gate_false (args : ActionSubscribe)
    (readPath : String → Except ConfigError (List String)) (h : args.accounts = false) :
    buildAccounts args readPath = .ok [] := by
  simp [buildAccounts, h, Except.pure, pure]

/-- Whatever the accounts step produces is either the empty map (gate
off) or the single group keyed "client" (gate on). -/
theorem buildAccounts_ok_shape (args : ActionSubscribe)
    (readPath : String → Except ConfigError (List String))
    (m : List (String × SubscribeRequestFilterAccounts))
    (hm : buildAccounts args readPath = .ok m) :
    (args.accounts = false → m = []) ∧
    (args.accounts = true → ∃ f, m = [("client", f)]) := by
  cases hg : args.accounts with
  | false =>
    rw [buildAccounts_gate_false args readPath hg] at hm
    have hm' : m = [] := (Except.ok.inj hm).symm
    exact ⟨fun _ => hm', fun htrue => nomatch htrue⟩
  | true =>
    refine ⟨fun hfalse => (nomatch hfalse), fun _ => ?_⟩
    revert hm
    cases hp : args.accounts_account_path with
    | none =>
      cases hmm : parseMemcmpList args.accounts_memcmp with
      | error e =>
        simp [buildAccounts, hg, hp, hmm, Except.bind, Bind.bind, Except.instMonad,
          Except.pure]
      | ok fs =>
        intro hm
        simp [buildAccounts, hg, hp, hmm, Except.bind, Bind.bind, Except.instMonad,
          Except.pure] at hm
        exact ⟨_, hm.symm⟩
    | some p =>
      cases hr : readPath p with
      | error e =>
        simp [buildAccounts, hg, hp, hr, Except.bind, Bind.bind, Except.instMonad,
          Except.pure]
      | ok fromPath =>
        cases hmm : parseMemcmpList args.accounts_memcmp with
        | error e =>
          simp [buildAccounts, hg, hp, hr, hmm, Except.bind, Bind.bind, Except.instMonad,
            Except.pure]
        | ok fs =>
          intro hm
          simp [buildAccounts, hg, hp, hr, hmm, Except.bind, Bind.bind, Except.instMonad,
            Except.pure] at hm
          exact ⟨_, hm.symm⟩

/-- C6: in every successfully built request, each of the seven
boolean-gated categories holds the empty filter-group map when its gate
is off, and exactly the one group labelled "client" when its gate is on. -/
theorem C6_gate_iff_single_client_group (args : ActionSubscribe)
    (readPath : String → Except ConfigError (List String))
    (commitment : Option CommitmentLevel) (req : SubscribeRequest) (n : Nat)
    (h : get_subscribe_request (.subscribe args) readPath commitment = .ok (some (req, n))) :
    ((args.accounts = false → req.accounts = []) ∧
      (args.accounts = true → ∃ f, req.accounts = [("client", f)])) ∧
    ((args.slots = false → req.slots = []) ∧
      (args.slots = true → ∃ f, req.slots = [("client", f)])) ∧
    ((args.transactions = false → req.transactions = []) ∧
      (args.transactions = true → ∃ f, req.transactions = [("client", f)])) ∧
    ((args.transactions_status = false → req.transactions_status = []) ∧
      (args.transactions_status = true → ∃ f, req.transactions_status = [("client", f)])) ∧
    ((args.entry = false → req.entry = []) ∧
      (args.entry = true → ∃ f, req.entry = [("client", f)])) ∧
    ((args.blocks = false → req.blocks = []) ∧
      (args.blocks = true → ∃ f, req.blocks = [("client", f)])) ∧
    ((args.blocks_meta = false → req.blocks_meta = []) ∧
      (args.blocks_meta = true → ∃ f, req.blocks_meta = [("client", f)])) := by
  cases hacc : buildAccounts args readPath with
  | error e =>
    rw [get_subscribe_request_err_accounts args readPath commitment e hacc] at h
    cases h
  | ok accounts =>
    cases hds : parseDataSliceList args.accounts_data_slice with
    | error e =>
      rw [get_subscribe_request_err_ds args readPath commitment accounts e hacc hds] at h
      cases h
    | ok ds =>
      rw [get_subscribe_request_eq args readPath commitment accounts ds hacc hds] at h
      have hreq := Option.some.inj (Except.ok.inj h)
      obtain ⟨hfst, hsnd⟩ := Prod.mk.inj hreq
      subst hfst
      refine ⟨buildAccounts_ok_shape args readPath accounts hacc, ?_, ?_, ?_, ?_, ?_, ?_⟩ <;>
        constructor <;> intro hg <;> simp [hg]
      all_goals exact ⟨⟨⟩, trivial⟩

/-- Witness for C6 at a spec with every gate on. -/
theorem C6_witness :
    ((fullSubscribeArgs.accounts = false → fullBuiltRequest.accounts = []) ∧
      (fullSubscribeArgs.accounts = true →
        ∃ f, fullBuiltRequest.accounts = [("client", f)])) ∧
    ((fullSubscribeArgs.slots = false → fullBuiltRequest.slots = []) ∧
      (fullSubscribeArgs.slots = true → ∃ f, fullBuiltRequest.slots = [("client", f)])) ∧
    ((fullSubscribeArgs.transactions = false → fullBuiltRequest.transactions = []) ∧
      (fullSubscribeArgs.transactions = true →
        ∃ f, fullBuiltRequest.transactions = [("client", f)])) ∧
    ((fullSubscribeArgs.transactions_status = false →
        fullBuiltRequest.transactions_status = []) ∧
      (fullSubscribeArgs.transactions_status = true →
        ∃ f, fullBuiltRequest.transactions_status = [("client", f)])) ∧
    ((fullSubscribeArgs.entry = false → fullBuiltRequest.entry = []) ∧
      (fullSubscribeArgs.entry = true → ∃ f, fullBuiltRequest.entry = [("client", f)])) ∧
    ((fullSubscribeArgs.blocks = false → fullBuiltRequest.blocks = []) ∧
      (fullSubscribeArgs.blocks = true → ∃ f, fullBuiltRequest.blocks = [("client", f)])) ∧
    ((fullSubscribeArgs.blocks_meta = false → fullBuiltRequest.blocks_meta = []) ∧
      (fullSubscribeArgs.blocks_meta = true →
        ∃ f, fullBuiltRequest.blocks_meta = [("client", f)])) :=
  C6_gate_iff_single_client_group fullSubscribeArgs trivialReadPath none
    fullBuiltRequest 0 (by rfl)

/-- C10: the commitment resolution always produces a value (`Processed`
when the user supplied none), and every successfully built request
carries that value in its commitment field: the wire field is never left
unset. -/
theorem C10_commitment_always_populated (c : Option ArgsCommitment)
    (args : ActionSubscribe) (readPath : String → Except ConfigError (List String))
    (req : SubscribeRequest) (n : Nat)
    (h : get_subscribe_request (.subscribe args) readPath (get_commitment c) =
      .ok (some (req, n))) :
    get_commitment c = some ((c.getD ArgsCommitment.processed).toLevel) ∧
    req.commitment = some ((c.getD ArgsCommitment.processed).toLevel.toI32) ∧
    (c = none → req.commitment = some 0) := by
  cases hacc : buildAccounts args readPath with
  | error e =>
    rw [get_subscribe_request_err_accounts args readPath (get_commitment c) e hacc] at h
    cases h
  | ok accounts =>
    cases hds : parseDataSliceList args.accounts_data_slice with
    | error e =>
      rw [get_subscribe_request_err_ds args readPath (get_commitment c) accounts e hacc hds] at h
      cases h
    | ok ds =>
      rw [get_subscribe_request_eq args readPath (get_commitment c) accounts ds hacc hds] at h
      have hreq := Option.some.inj (Except.ok.inj h)
      obtain ⟨hfst, hsnd⟩ := Prod.mk.inj hreq
      subst hfst
      refine ⟨rfl, by simp [get_commitment], ?_⟩
      intro hc
      subst hc
      simp [get_commitment, ArgsCommitment.toLevel, CommitmentLevel.toI32]

/-- Witness for C10 with no user-supplied commitment. -/
theorem C10_witness :
    get_commitment none =
      some ((Option.getD none ArgsCommitment.processed).toLevel) ∧
    processedBuiltRequest.commitment =
      some ((Option.getD none ArgsCommitment.processed).toLevel.toI32) ∧
    (none = (none : Option ArgsCommitment) →
      processedBuiltRequest.commitment = some 0) :=
  C10_commitment_always_populated none emptySubscribeArgs trivialReadPath
    processedBuiltRequest 0 (by rfl)

/-! ## Numeral and option-string parsing lemmas -/

theorem natDigitsAux_lt (n : Nat) (acc : List Char) (h : n < 10) :
    natDigitsAux n acc = digitChar n :: acc := by
  rw [natDigitsAux.eq_def]
  simp [h]

theorem natDigitsAux_ge (n : Nat) (acc : List Char) (h : ¬ n < 10) :
    natDigitsAux n acc = natDigitsAux (n / 10) (digitChar (n % 10) :: acc) := by
  rw [natDigitsAux.eq_def]
  simp [h]

theorem charToDigit_digitChar (d : Nat) (h : d < 10) :
    charToDigit (digitChar d) = some d := by
  interval_cases d <;> decide

theorem digitChar_ne (d : Nat) (h : d < 10) :
    digitChar d ≠ '+' ∧ digitChar d ≠ ',' := by
  interval_cases d <;> exact ⟨by decide, by decide⟩


theorem natDigitsAux_acc (n : Nat) : ∀ acc : List Char,
    natDigitsAux n acc = natDigitsAux n [] ++ acc := by
  induction n using Nat.strong_induction_on with
  | _ n ih =>
    intro acc
    by_cases h : n < 10
    · rw [natDigitsAux_lt n acc h, natDigitsAux_lt n [] h]
      rfl
    · have hlt : n / 10 < n := Nat.div_lt_self (by omega) (by omega)
      rw [natDigitsAux_ge n acc h, natDigitsAux_ge n [] h,
        ih (n / 10) hlt (digitChar (n % 10) :: acc),
        ih (n / 10) hlt [digitChar (n % 10)]]
      simp

theorem natDigits_nonempty (n : Nat) : natDigitsAux n [] ≠ [] := by
  by_cases h : n < 10
  · rw [natDigitsAux_lt n [] h]
    simp
  · rw [natDigitsAux_ge n [] h, natDigitsAux_acc (n / 10) [digitChar (n % 10)]]
    simp

theorem natDigits_all_digits (n : Nat) :
    ∀ c ∈ natDigitsAux n [], ∃ d, d < 10 ∧ c = digitChar d := by
  induction n using Nat.strong_induction_on with
  | _ n ih =>
    by_cases h : n < 10
    · rw [natDigitsAux_lt n [] h]
      intro c hc
      simp at hc
      exact ⟨n, h, hc⟩
    · have hlt : n / 10 < n := Nat.div_lt_self (by omega) (by omega)
      rw [natDigitsAux_ge n [] h, natDigitsAux_acc (n / 10) [digitChar (n % 10)]]
      intro c hc
      rcases List.mem_append.mp hc with hc | hc
      · exact ih (n / 10) hlt c hc
      · simp at hc
        exact ⟨n % 10, by omega, hc⟩

theorem digitsToNatAux_append (a : Nat) (xs ys : List Char) :
    digitsToNatAux a (xs ++ ys) =
      (digitsToNatAux a xs).bind (fun b => digitsToNatAux b ys) := by
  induction xs generalizing a with
  | nil => rfl
  | cons c cs ihx =>
    cases hcd : charToDigit c with
    | none => simp [digitsToNatAux, hcd]
    | some d => simp [digitsToNatAux, hcd, ihx]

theorem digitsToNatAux_value (n : Nat) : ∀ a : Nat,
    digitsToNatAux a (natDigitsAux n []) =
      some (a * 10 ^ (natDigitsAux n []).length + n) := by
  induction n using Nat.strong_induction_on with
  | _ n ih =>
    intro a
    by_cases h : n < 10
    · rw [natDigitsAux_lt n [] h]
      simp [digitsToNatAux, charToDigit_digitChar n h]
    · have hlt : n / 10 < n := Nat.div_lt_self (by omega) (by omega)
      have hmod : n % 10 < 10 := by omega
      rw [natDigitsAux_ge n [] h, natDigitsAux_acc (n / 10) [digitChar (n % 10)],
        digitsToNatAux_append, ih (n / 10) hlt a]
      simp only [Option.bind]
      simp [digitsToNatAux, charToDigit_digitChar _ hmod, List.length_append]
      generalize (natDigitsAux (n / 10) []).length = k
      have h1 : n / 10 * 10 + n % 10 = n := by omega
      have h2 : (a * 10 ^ k + n / 10) * 10 + n % 10 =
          a * (10 ^ k * 10) + (n / 10 * 10 + n % 10) := by ring
      rw [h2, h1, pow_succ]

theorem digitsToNat_natDigits (n : Nat) : digitsToNat (natDigitsAux n []) = some n := by
  have hne := natDigits_nonempty n
  have hif : (natDigitsAux n []).isEmpty = false := by
    cases hcs : natDigitsAux n [] with
    | nil => exact absurd hcs hne
    | cons c cs => rfl
  rw [digitsToNat, hif]
  simp [digitsToNatAux_value n 0]

theorem parseU64_natRepr (n : Nat) (h : n < 2 ^ 64) : parseU64 (natRepr n) = some n := by
  have hhead : (natDigitsAux n []).head? ≠ some '+' := by
    cases hcs : natDigitsAux n [] with
    | nil => simp
    | cons c cs =>
      have hc : c ∈ natDigitsAux n [] := by
        rw [hcs]
        exact List.mem_cons_self c cs
      obtain ⟨d, hd, hcd⟩ := natDigits_all_digits n c hc
      subst hcd
      simp [(digitChar_ne d hd).1]
  show parseU64 ⟨natDigitsAux n []⟩ = some n
  rw [parseU64]
  rw [if_neg hhead]
  rw [digitsToNat_natDigits n]
  simp only []
  rw [if_pos (by omega : n < 2 ^ 64)]

theorem digitsToNatAux_all (cs : List Char) : ∀ (a n : Nat),
    digitsToNatAux a cs = some n → ∀ c ∈ cs, (charToDigit c).isSome := by
  induction cs with
  | nil =>
    intro a n _ c hc
    cases hc
  | cons c cs ihc =>
    intro a n h x hx
    cases hcd : charToDigit c with
    | none => simp [digitsToNatAux, hcd] at h
    | some d =>
      simp only [digitsToNatAux, hcd] at h
      rcases List.mem_cons.mp hx with hx | hx
      · subst hx
        simp [hcd]
      · exact ihc (a * 10 + d) n h x hx

theorem digitsToNat_all (cs : List Char) (n : Nat) (h : digitsToNat cs = some n) :
    ∀ c ∈ cs, (charToDigit c).isSome := by
  rw [digitsToNat] at h
  cases hemp : cs.isEmpty with
  | true => rw [hemp] at h; cases h
  | false =>
    rw [hemp] at h
    simp only [Bool.false_eq_true, if_false] at h
    exact digitsToNatAux_all cs 0 n h

theorem charToDigit_comma : charToDigit ',' = none := by decide

theorem charToDigit_plus : charToDigit '+' = none := by decide

theorem parseU64_no_comma (s : String) (n : Nat) (h : parseU64 s = some n) :
    ',' ∉ s.data := by
  intro hmem
  rw [parseU64] at h
  by_cases hplus : s.data.head? = some '+'
  · rw [if_pos hplus] at h
    cases hdn : digitsToNat s.data.tail with
    | none => rw [hdn] at h; cases h
    | some m =>
      have hall := digitsToNat_all s.data.tail m hdn
      cases hsd : s.data with
      | nil => rw [hsd] at hplus; cases hplus
      | cons c cs =>
        rw [hsd] at hplus
        have hc : c = '+' := by
          simpa using hplus
        rw [hsd] at hmem
        rcases List.mem_cons.mp hmem with hx | hx
        · rw [hc] at hx
          cases hx
        · have hth : (s.data.tail) = cs := by simp [hsd]
          have := hall ',' (by rw [hth]; exact hx)
          rw [charToDigit_comma] at this
          cases this
  · rw [if_neg hplus] at h
    cases hdn : digitsToNat s.data with
    | none => rw [hdn] at h; cases h
    | some m =>
      have := digitsToNat_all s.data m hdn ',' hmem
      rw [charToDigit_comma] at this
      cases this

theorem parseU64_lt (s : String) (n : Nat) (h : parseU64 s = some n) : n < 2 ^ 64 := by
  rw [parseU64] at h
  cases hdn : digitsToNat (if s.data.head? = some '+' then s.data.tail else s.data) with
  | none => rw [hdn] at h; cases h
  | some m =>
    rw [hdn] at h
    by_cases hb : m < 2 ^ 64
    · simp [hb] at h
      omega
    · simp [hb] at h
      omega

theorem splitOnceAux_append (pre post : List Char) (sep : Char) (h : sep ∉ pre) :
    splitOnceAux (pre ++ sep :: post) sep = some (pre, post) := by
  induction pre with
  | nil => simp [splitOnceAux]
  | cons c cs ihp =>
    have hc : c ≠ sep := fun hceq => h (hceq ▸ List.mem_cons_self c cs)
    have hcs : sep ∉ cs := fun hx => h (List.mem_cons_of_mem c hx)
    simp [splitOnceAux, hc, ihp hcs]

theorem splitOnce_append (a b : String) (h : ',' ∉ a.data) :
    splitOnce (a ++ "," ++ b) ',' = some (a, b) := by
  have hdata : (a ++ "," ++ b).data = a.data ++ ',' :: b.data := by
    simp [String.data_append]
  rw [splitOnce, hdata, splitOnceAux_append a.data b.data ',' h]

theorem parseMemcmp_wellformed (offStr dataStr : String) (off : Nat)
    (hoff : parseU64 offStr = some off) (htrim : strTrim dataStr = dataStr) :
    parseMemcmp (offStr ++ "," ++ dataStr) =
      .ok ⟨some (.memcmp ⟨off, some (.base58 dataStr)⟩)⟩ := by
  have hnc : ',' ∉ offStr.data := parseU64_no_comma offStr off hoff
  rw [parseMemcmp, splitOnce_append offStr dataStr hnc]
  simp [hoff, htrim]

theorem parseMemcmp_error_kinds (s : String) (e : ConfigError)
    (h : parseMemcmp s = .error e) :
    e = ConfigError.invalidMemcmp ∨ e = ConfigError.invalidOffset := by
  rw [parseMemcmp] at h
  cases hsp : splitOnce s ',' with
  | none =>
    rw [hsp] at h
    exact Or.inl (Except.error.inj h).symm
  | some pr =>
    obtain ⟨pre, post⟩ := pr
    rw [hsp] at h
    cases hp : parseU64 pre with
    | none =>
      simp only [hp] at h
      exact Or.inr (Except.error.inj h).symm
    | some o =>
      simp only [hp] at h
      cases h

theorem parseMemcmp_malformed (s : String)
    (hm : splitOnce s ',' = none ∨
      ∃ pre post, splitOnce s ',' = some (pre, post) ∧ parseU64 pre = none) :
    ∃ e, parseMemcmp s = .error e ∧
      (e = ConfigError.invalidMemcmp ∨ e = ConfigError.invalidOffset) := by
  rcases hm with hm | ⟨pre, post, hsp, hp⟩
  · exact ⟨.invalidMemcmp, by simp [parseMemcmp, hm], Or.inl rfl⟩
  · exact ⟨.invalidOffset, by simp [parseMemcmp, hsp, hp], Or.inr rfl⟩

theorem parseMemcmpList_singleton (s : String) (f : SubscribeRequestFilterAccountsFilter)
    (h : parseMemcmp s = .ok f) : parseMemcmpList [s] = .ok [f] := by
  simp [parseMemcmpList, h, Except.bind, Bind.bind, Except.instMonad, Except.pure]

theorem parseMemcmpList_error_kinds : ∀ (l : List String) (e : ConfigError),
    parseMemcmpList l = .error e →
    e = ConfigError.invalidMemcmp ∨ e = ConfigError.invalidOffset := by
  intro l
  induction l with
  | nil =>
    intro e h
    cases h
  | cons s rest ihl =>
    intro e h
    cases hs : parseMemcmp s with
    | error e2 =>
      simp [parseMemcmpList, hs, Except.bind, Bind.bind, Except.instMonad] at h
      exact h ▸ parseMemcmp_error_kinds s e2 hs
    | ok f =>
      cases hr : parseMemcmpList rest with
      | error e2 =>
        simp [parseMemcmpList, hs, hr, Except.bind, Bind.bind, Except.instMonad] at h
        exact h ▸ ihl e2 hr
      | ok fs =>
        simp [parseMemcmpList, hs, hr, Except.bind, Bind.bind, Except.instMonad,
          Except.pure] at h

theorem parseMemcmpList_mem_error (l : List String) (s : String) (hs : s ∈ l)
    (e2 : ConfigError) (hpe : parseMemcmp s = .error e2) :
    ∃ e, parseMemcmpList l = .error e := by
  induction l with
  | nil => cases hs
  | cons t rest ihl =>
    cases ht : parseMemcmp t with
    | error e3 =>
      exact ⟨e3, by simp [parseMemcmpList, ht, Except.bind, Bind.bind, Except.instMonad]⟩
    | ok f =>
      rcases List.mem_cons.mp hs with hx | hx
      · subst hx
        rw [ht] at hpe
        cases hpe
      · obtain ⟨e, he⟩ := ihl hx
        exact ⟨e, by simp [parseMemcmpList, ht, he, Except.bind, Bind.bind, Except.instMonad]⟩

theorem parseDataSlice_wellformed (s a b : String) (o l : Nat)
    (hsp : splitOnce s ',' = some (a, b))
    (ho : parseU64 a = some o) (hl : parseU64 b = some l) :
    parseDataSlice s = .ok ⟨o, l⟩ := by
  simp [parseDataSlice, hsp, ho, hl]

theorem parseDataSlice_error_kind (s : String) (e : ConfigError)
    (h : parseDataSlice s = .error e) : e = ConfigError.invalidDataSlice := by
  rw [parseDataSlice] at h
  cases hsp : splitOnce s ',' with
  | none =>
    rw [hsp] at h
    exact (Except.error.inj h).symm
  | some pr =>
    obtain ⟨a, b⟩ := pr
    rw [hsp] at h
    cases ha : parseU64 a with
    | none =>
      simp only [ha] at h
      exact (Except.error.inj h).symm
    | some o =>
      cases hb : parseU64 b with
      | none => simp only [ha, hb] at h; exact (Except.error.inj h).symm
      | some l => simp only [ha, hb] at h; cases h

theorem parseDataSlice_malformed (s : String)
    (hm : splitOnce s ',' = none ∨
      ∃ a b, splitOnce s ',' = some (a, b) ∧ (parseU64 a = none ∨ parseU64 b = none)) :
    parseDataSlice s = .error ConfigError.invalidDataSlice := by
  rcases hm with hm | ⟨a, b, hsp, hab⟩
  · simp [parseDataSlice, hm]
  · rcases hab with ha | hb
    · cases hbv : parseU64 b with
      | none => simp [parseDataSlice, hsp, ha, hbv]
      | some l => simp [parseDataSlice, hsp, ha, hbv]
    · cases hav : parseU64 a with
      | none => simp [parseDataSlice, hsp, hav, hb]
      | some o => simp [parseDataSlice, hsp, hav, hb]

theorem parseDataSliceList_singleton (s : String) (d : SubscribeRequestAccountsDataSlice)
    (h : parseDataSlice s = .ok d) : parseDataSliceList [s] = .ok [d] := by
  simp [parseDataSliceList, h, Except.bind, Bind.bind, Except.instMonad, Except.pure]

theorem parseDataSliceList_error_kind : ∀ (l : List String) (e : ConfigError),
    parseDataSliceList l = .error e → e = ConfigError.invalidDataSlice := by
  intro l
  induction l with
  | nil =>
    intro e h
    cases h
  | cons s rest ihl =>
    intro e h
    cases hs : parseDataSlice s with
    | error e2 =>
      simp [parseDataSliceList, hs, Except.bind, Bind.bind, Except.instMonad] at h
      exact h ▸ parseDataSlice_error_kind s e2 hs
    | ok d =>
      cases hr : parseDataSliceList rest with
      | error e2 =>
        simp [parseDataSliceList, hs, hr, Except.bind, Bind.bind, Except.instMonad] at h
        exact h ▸ ihl e2 hr
      | ok ds =>
        simp [parseDataSliceList, hs, hr, Except.bind, Bind.bind, Except.instMonad,
          Except.pure] at h

theorem parseDataSliceList_mem_error (l : List String) (s : String) (hs : s ∈ l)
    (e2 : ConfigError) (hpe : parseDataSlice s = .error e2) :
    ∃ e, parseDataSliceList l = .error e := by
  induction l with
  | nil => cases hs
  | cons t rest ihl =>
    cases ht : parseDataSlice t with
    | error e3 =>
      exact ⟨e3, by simp [parseDataSliceList, ht, Except.bind, Bind.bind, Except.instMonad]⟩
    | ok d =>
      rcases List.mem_cons.mp hs with hx | hx
      · subst hx
        rw [ht] at hpe
        cases hpe
      · obtain ⟨e, he⟩ := ihl hx
        exact ⟨e, by
          simp [parseDataSliceList, ht, he, Except.bind, Bind.bind, Except.instMonad]⟩

theorem buildAccounts_memcmp_error (args : ActionSubscribe)
    (readPath : String → Except ConfigError (List String)) (e : ConfigError)
    (hg : args.accounts = true) (hp : args.accounts_account_path = none)
    (hmm : parseMemcmpList args.accounts_memcmp = .error e) :
    buildAccounts args readPath = .error e := by
  simp [buildAccounts, hg, hp, hmm, Except.bind, Bind.bind, Except.instMonad, Except.pure]

theorem buildAccounts_single_memcmp (args : ActionSubscribe)
    (readPath : String → Except ConfigError (List String))
    (f : SubscribeRequestFilterAccountsFilter)
    (hg : args.accounts = true) (hp : args.accounts_account_path = none)
    (hmm : parseMemcmpList args.accounts_memcmp = .ok [f])
    (hds : args.accounts_datasize = none) (hts : args.accounts_token_account_state = false) :
    buildAccounts args readPath =
      .ok [("client", ⟨args.accounts_account, args.accounts_owner, [f]⟩)] := by
  simp [buildAccounts, hg, hp, hmm, hds, hts, Except.bind, Bind.bind, Except.instMonad,
    Except.pure]

theorem C7_memcmp_exact_or_invalid :
    (∀ (offStr dataStr : String) (off : Nat) (args : ActionSubscribe)
        (readPath : String → Except ConfigError (List String))
        (commitment : Option CommitmentLevel),
        parseU64 offStr = some off → strTrim dataStr = dataStr →
        args.accounts = true → args.accounts_account_path = none →
        args.accounts_memcmp = [offStr ++ "," ++ dataStr] →
        args.accounts_datasize = none → args.accounts_token_account_state = false →
        args.accounts_data_slice = [] →
        ∃ req n,
          get_subscribe_request (.subscribe args) readPath commitment = .ok (some (req, n)) ∧
          req.accounts = [("client", ⟨args.accounts_account, args.accounts_owner,
            [⟨some (.memcmp ⟨off, some (.base58 dataStr)⟩)⟩]⟩)]) ∧
    (∀ (s : String) (args : ActionSubscribe)
        (readPath : String → Except ConfigError (List String))
        (commitment : Option CommitmentLevel),
        args.accounts = true → args.accounts_account_path = none →
        s ∈ args.accounts_memcmp →
        (splitOnce s ',' = none ∨
          ∃ pre post, splitOnce s ',' = some (pre, post) ∧ parseU64 pre = none) →
        ∃ e, get_subscribe_request (.subscribe args) readPath commitment = .error e ∧
          (e = ConfigError.invalidMemcmp ∨ e = ConfigError.invalidOffset)) := by
  constructor
  · intro offStr dataStr off args readPath commitment hoff htrim hg hp hmem hds hts hslice
    have hpm := parseMemcmp_wellformed offStr dataStr off hoff htrim
    have hlist : parseMemcmpList args.accounts_memcmp =
        .ok [⟨some (.memcmp ⟨off, some (.base58 dataStr)⟩)⟩] := by
      rw [hmem]
      exact parseMemcmpList_singleton _ _ hpm
    have hacc := buildAccounts_single_memcmp args readPath _ hg hp hlist hds hts
    have hdsl : parseDataSliceList args.accounts_data_slice = .ok [] := by
      rw [hslice]
      rfl
    exact ⟨_, _, get_subscribe_request_eq args readPath commitment _ [] hacc hdsl, rfl⟩
  · intro s args readPath commitment hg hp hmem hbad
    obtain ⟨e2, hpe, _⟩ := parseMemcmp_malformed s hbad
    obtain ⟨e, hlist⟩ := parseMemcmpList_mem_error args.accounts_memcmp s hmem e2 hpe
    have hkind := parseMemcmpList_error_kinds args.accounts_memcmp e hlist
    have hacc := buildAccounts_memcmp_error args readPath e hg hp hlist
    exact ⟨e, get_subscribe_request_err_accounts args readPath commitment e hacc, hkind⟩

theorem C7_witness :
    (∃ req n,
      get_subscribe_request (.subscribe memcmpArgs) trivialReadPath none =
        .ok (some (req, n)) ∧
      req.accounts = [("client", ⟨memcmpArgs.accounts_account, memcmpArgs.accounts_owner,
        [⟨some (.memcmp ⟨12, some (.base58 "abc")⟩)⟩]⟩)]) ∧
    (∃ e, get_subscribe_request (.subscribe badMemcmpArgs) trivialReadPath none = .error e ∧
      (e = ConfigError.invalidMemcmp ∨ e = ConfigError.invalidOffset)) :=
  ⟨C7_memcmp_exact_or_invalid.1 "12" "abc" 12 memcmpArgs trivialReadPath none
      (by decide) (by decide) rfl rfl (by decide) rfl rfl rfl,
   C7_memcmp_exact_or_invalid.2 "nocomma" badMemcmpArgs trivialReadPath none
      rfl rfl (by decide) (Or.inl (by decide))⟩

theorem C9_data_slice_roundtrip_or_invalid :
    (∀ (s a b : String) (o l : Nat),
        splitOnce s ',' = some (a, b) → parseU64 a = some o → parseU64 b = some l →
        parseDataSlice s = .ok ⟨o, l⟩ ∧
        serializeDataSlice ⟨o, l⟩ = natRepr o ++ "," ++ natRepr l ∧
        parseDataSlice (serializeDataSlice ⟨o, l⟩) = .ok ⟨o, l⟩) ∧
    (∀ (s : String) (args : ActionSubscribe)
        (readPath : String → Except ConfigError (List String))
        (c : Option ArgsCommitment) (inbound : List StreamItem),
        args.accounts = false → s ∈ args.accounts_data_slice →
        (splitOnce s ',' = none ∨
          ∃ a b, splitOnce s ',' = some (a, b) ∧
            (parseU64 a = none ∨ parseU64 b = none)) →
        get_subscribe_request (.subscribe args) readPath (get_commitment c) =
          .error ConfigError.invalidDataSlice ∧
        mainSubscribe args readPath c inbound =
          .permanentError ConfigError.invalidDataSlice) := by
  constructor
  · intro s a b o l hsp ho hl
    refine ⟨parseDataSlice_wellformed s a b o l hsp ho hl, rfl, ?_⟩
    have hbo : o < 2 ^ 64 := parseU64_lt a o ho
    have hbl : l < 2 ^ 64 := parseU64_lt b l hl
    have hnc : ',' ∉ (natRepr o).data := by
      intro hmem
      obtain ⟨d, hd, hcd⟩ := natDigits_all_digits o ',' hmem
      exact (digitChar_ne d hd).2 hcd.symm
    have hsp2 := splitOnce_append (natRepr o) (natRepr l) hnc
    exact parseDataSlice_wellformed _ _ _ o l hsp2 (parseU64_natRepr o hbo)
      (parseU64_natRepr l hbl)
  · intro s args readPath c inbound hg hmem hbad
    have hpe := parseDataSlice_malformed s hbad
    obtain ⟨e, hlist⟩ :=
      parseDataSliceList_mem_error args.accounts_data_slice s hmem _ hpe
    have hkind := parseDataSliceList_error_kind args.accounts_data_slice e hlist
    subst hkind
    have hacc := buildAccounts_gate_false args readPath hg
    have herr := get_subscribe_request_err_ds args readPath (get_commitment c) [] _ hacc hlist
    refine ⟨herr, ?_⟩
    simp [mainSubscribe, herr]

theorem C9_witness :
    (parseDataSlice "3,44" = .ok ⟨3, 44⟩ ∧
     serializeDataSlice ⟨3, 44⟩ = natRepr 3 ++ "," ++ natRepr 44 ∧
     parseDataSlice (serializeDataSlice ⟨3, 44⟩) = .ok ⟨3, 44⟩) ∧
    (get_subscribe_request (.subscribe badDataSliceArgs) trivialReadPath
        (get_commitment none) = .error ConfigError.invalidDataSlice ∧
     mainSubscribe badDataSliceArgs trivialReadPath none [] =
       .permanentError ConfigError.invalidDataSlice) :=
  ⟨C9_data_slice_roundtrip_or_invalid.1 "3,44" "3" "44" 3 44
      (by decide) (by decide) (by decide),
   C9_data_slice_roundtrip_or_invalid.2 "nocomma" badDataSliceArgs trivialReadPath none []
      rfl (by decide) (Or.inl (by decide))⟩

end GClient
